import Mathlib

/-!
Verification development for the SpongeWorld annotation client
(`spongeworld_calour.py`).

The embedding below translates the program into Lean:

* `Distribution`, `SequenceAnnotationInfo` mirror the JSON payload of the
  `sequence/info` endpoint (§ data model).  The field `total_observed` is an
  `Option Nat`: `none` models a present key holding the JSON-null value.
  Absence of the key itself - which makes the program's dict access raise
  `KeyError` - is modelled separately by `SequenceAnnotationPayload` and the
  fallible front-end `get_annotation_string_checked`.
* Real-valued arithmetic of the scoring routine is embedded in `ℚ` (the
  program divides counts and feeds the exact ratios to the binomial CDF).
* `binomCDF` models `scipy.stats.binom.cdf` (an external library) by the
  standard mathematical definition of the binomial cumulative distribution
  function, written as a structural recursion so that it evaluates.
* Python's `sorted` is a stable sort; it is embedded as `List.mergeSort`,
  which is stable, with the comparator induced by the `key`/`reverse`
  arguments (for `reverse=True`, `a` sorts before `b` iff `key b ≤ key a`,
  ties keeping input order - exactly Python's documented behaviour).
* The HTTP transport is a parameter `server : String → String → Response`
  mapping an api route and the request sequence to the response; a parsed
  JSON body is carried in the response.
-/

namespace Spongeworld

/-- Per-(field, value) distribution from the payload: `total_samples` samples
carry this value, `observed_samples` of them contain the sequence. -/
structure Distribution where
  total_samples : Nat
  observed_samples : Nat
deriving DecidableEq

/-- Payload of the `sequence/info` endpoint, as consumed by
`get_annotation_string` after the `total_observed` key has been read:
`total_observed = none` models a present key holding the JSON-null value
(an absent key raises before this point, see `SequenceAnnotationPayload`).
`info` is the insertion-ordered dict field → (value → distribution). -/
structure SequenceAnnotationInfo where
  total_samples : Nat
  total_observed : Option Nat
  info : List (String × List (String × Distribution))
deriving DecidableEq

/-- Python's `str.lower()` (ASCII case mapping): lower-case every character.
Written as a per-character map over the string's character list (the same
mapping `String.toLower` performs) so that it evaluates. -/
def pyLower (s : String) : String := String.mk (s.data.map Char.toLower)

/-- Python's `str.upper()` (ASCII case mapping): upper-case every character,
written as a per-character map like `pyLower`. -/
def pyUpper (s : String) : String := String.mk (s.data.map Char.toUpper)

/-- Binomial probability mass function with `n` trials, success
probability `p`, at `k` successes. -/
def binomPMF (n k : Nat) (p : ℚ) : ℚ :=
  (n.choose k : ℚ) * p ^ k * (1 - p) ^ (n - k)

/-- Model of `scipy.stats.binom.cdf x n p`: the probability that a
binomial variable with `n` trials and success probability `p` is `≤ x`. -/
def binomCDF (x n : Nat) (p : ℚ) : ℚ :=
  match x with
  | 0 => binomPMF n 0 p
  | y + 1 => binomCDF y n p + binomPMF n (y + 1) p

/-- The intermediate `[cdesc, cfrac, cpval]` record built by the keep-loop of
`get_annotation_string`: display text, observed fraction, p-value. -/
structure ScoredDescriptor where
  text : String
  frac : ℚ
  pval : ℚ
deriving DecidableEq

/-- The body of the keep-loop of `get_annotation_string` for one
`(cfield, cval, cdist)` triple: display text `"field:value (obs/total)"`,
fraction `observed/total`, and the binomial-CDF p-value
`binom.cdf (total - observed) total null_pv`. -/
def scoreTriple (null_pv : ℚ) (cfield cval : String) (cdist : Distribution) :
    ScoredDescriptor :=
  ⟨ cfield ++ ":" ++ cval ++ " (" ++ toString cdist.observed_samples ++ "/" ++
      toString cdist.total_samples ++ ")"
  , (cdist.observed_samples : ℚ) / (cdist.total_samples : ℚ)
  , binomCDF (cdist.total_samples - cdist.observed_samples)
      cdist.total_samples null_pv ⟩

/-- The `keep` list after the nested loops of `get_annotation_string`: one
scored descriptor per `(field, value)` pair whose p-value is `≤ pv`,
in dict iteration order. -/
def keepList (null_pv pv : ℚ)
    (inf : List (String × List (String × Distribution))) :
    List ScoredDescriptor :=
  inf.flatMap (fun cf =>
    (cf.2.map (fun cv => scoreTriple null_pv cf.1 cv.1 cv.2)).filter
      (fun s => decide (s.pval ≤ pv)))

/-- Comparator of the first `sorted` call: ascending by p-value
(`key=itemgetter(2), reverse=False`). -/
def le_pval (a b : ScoredDescriptor) : Bool := decide (a.pval ≤ b.pval)

/-- Comparator of the second `sorted` call: descending by fraction
(`key=itemgetter(1), reverse=True`); a stable descending sort places `a`
before `b` iff `key b ≤ key a`, ties keeping input order. -/
def ge_frac (a b : ScoredDescriptor) : Bool := decide (b.frac ≤ a.frac)

/-- The `keep` list after both (stable) sorts of `get_annotation_string`:
first ascending by p-value, then descending by fraction. -/
def sortedKeep (null_pv pv : ℚ)
    (inf : List (String × List (String × Distribution))) :
    List ScoredDescriptor :=
  ((keepList null_pv pv inf).mergeSort le_pval).mergeSort ge_frac

/-- Model of Python's `'%f'` fixed-point formatting applied to the exact
ratio: round to six decimal places and print with exactly six fractional
digits. -/
def formatFixed6 (q : ℚ) : String :=
  let m : Int := round (q * 1000000)
  let sgn := if m < 0 then "-" else ""
  let a := m.natAbs
  let ip := a / 1000000
  let fp := a % 1000000
  let fs := toString fp
  sgn ++ toString ip ++ "." ++ String.mk (List.replicate (6 - fs.length) '0') ++ fs

/-- The header line `'Found in %f samples (%d / %d)'` of
`get_annotation_string`. -/
def headerString (total_observed total_samples : Nat) : String :=
  "Found in " ++ formatFixed6 ((total_observed : ℚ) / (total_samples : ℚ)) ++
    " samples (" ++ toString total_observed ++ " / " ++ toString total_samples ++ ")"

/-- Default significance threshold of `get_annotation_string` (`pval=0.1`). -/
def default_pval : ℚ := 1 / 10

/-- `get_annotation_string(info, pval)`: empty summary when `total_observed`
is `0` or null/absent; otherwise header line followed by the display texts of
the kept descriptors, sorted by p-value then (dominantly) by fraction. -/
def get_annotation_string (info : SequenceAnnotationInfo) (pv : ℚ) : List String :=
  match info.total_observed with
  | none => []
  | some total_observed =>
    if total_observed = 0 then []
    else
      let total_samples := info.total_samples
      let null_pv : ℚ := 1 - (total_observed : ℚ) / (total_samples : ℚ)
      let keep := sortedKeep null_pv pv info.info
      let desc := keep.map (fun k => k.text)
      headerString total_observed total_samples :: desc

/-- An HTTP response: status code plus the parsed JSON body (parsing of the
body is the transport layer's concern and is modelled as already done). -/
structure Response where
  status_code : Nat
  body : SequenceAnnotationInfo

/-- The api route queried by `get_seq_annotations`. -/
def seq_info_api : String := "sequence/info"

/-- Tail of `get_seq_annotations` after the request: on non-200 status return
`[]`, otherwise summarize the body with the default threshold. -/
def handleSeqInfo (res : Response) : List String :=
  if res.status_code ≠ 200 then []
  else get_annotation_string res.body default_pval

/-- `get_seq_annotations(sequence)`: uppercase the sequence, query
`sequence/info`, and summarize the response. -/
def get_seq_annotations (server : String → String → Response)
    (sequence : String) : List String :=
  let sequence := pyUpper sequence
  handleSeqInfo (server seq_info_api sequence)

/-- The metadata dict paired with every summary line by
`get_seq_annotation_strings`, as an association list. -/
def annDetails (sequence : String) : List (String × String) :=
  [( "annotationtype", "other" ), ( "sequence", sequence )]

/-- `get_seq_annotation_strings(sequence)`: pair every summary line with the
metadata dict carrying the caller's sequence. -/
def get_seq_annotation_strings (server : String → String → Response)
    (sequence : String) : List (List (String × String) × String) :=
  (get_seq_annotations server sequence).map (fun cann => (annDetails sequence, cann))

/-- URL of the `local` server tier. -/
def local_url : String := "http://127.0.0.1:5000"

/-- URL of the `main` server tier (note the trailing slash). -/
def main_url : String := "http://amnonim.webfactional.com/spongeworld/"

/-- URL of the `develop` server tier. -/
def develop_url : String := "http://amnonim.webfactional.com/spongeworld_develop"

/-- URL used when the environment variable is absent (no trailing slash). -/
def default_url : String := "http://amnonim.webfactional.com/spongeworld"

/-- The `ValueError` message raised on an unrecognized server tier. -/
def unknown_server_msg (servertype : String) : String :=
  "unknown server type " ++ servertype ++ " in SPONGEWORLD_SERVER_TYPE"

/-- `_get_db_address`: resolve the server URL from the
`SPONGEWORLD_SERVER_TYPE` environment variable (`none` = variable absent);
an unrecognized value raises `ValueError`, modelled as `Except.error`. -/
def _get_db_address (env : Option String) : Except String String :=
  match env with
  | some v =>
    let servertype := pyLower v
    if servertype = "local" then Except.ok local_url
    else if servertype = "main" then Except.ok main_url
    else if servertype = "develop" then Except.ok develop_url
    else Except.error (unknown_server_msg servertype)
  | none => Except.ok default_url

/-- The instance state set up by `SpongeWorld.__init__`. -/
structure SpongeWorld where
  dburl : String
  username : Option String
  password : Option String
  web_interface : String

/-- `SpongeWorld.__init__`: resolve and store the server URL (an exception
from `_get_db_address` propagates, so construction fails), then load the
credentials from the configuration store (passed in as parameters). -/
def SpongeWorld.init (env : Option String) (username password : Option String) :
    Except String SpongeWorld :=
  match _get_db_address env with
  | Except.error e => Except.error e
  | Except.ok url => Except.ok ⟨ url, username, password, url ⟩

/-- Raw `sequence/info` payload before the dict accesses of
`get_annotation_string`: the `total_observed` key may be absent entirely
(`none`), present with the JSON-null value (`some none`), or present with a
count (`some (some t)`). -/
structure SequenceAnnotationPayload where
  total_samples : Nat
  total_observed : Option (Option Nat)
  info : List (String × List (String × Distribution))
deriving DecidableEq

/-- The `KeyError` raised by the dict access `info['total_observed']` when
the key is absent. -/
def keyError_total_observed : String := "KeyError: total_observed"

/-- `get_annotation_string` including the dict access of its first line: an
absent `total_observed` key raises `KeyError` (modelled as `Except.error`)
before any check or return; a present key - null or a count - proceeds with
the summary exactly as `get_annotation_string` does. -/
def get_annotation_string_checked (payload : SequenceAnnotationPayload)
    (pv : ℚ) : Except String (List String) :=
  match payload.total_observed with
  | none => Except.error keyError_total_observed
  | some t =>
    Except.ok (get_annotation_string ⟨ payload.total_samples, t, payload.info ⟩ pv)

/-- Spec-side binomial cumulative distribution function, written as the
explicit finite sum of the spec's words: the probability of at most `x`
successes among `n` trials with success probability `p`. -/
def binomialCDFsum (x n : Nat) (p : ℚ) : ℚ :=
  ∑ k ∈ Finset.range (x + 1), (n.choose k : ℚ) * p ^ k * (1 - p) ^ (n - k)

theorem binomCDF_eq_sum (x n : Nat) (p : ℚ) :
    binomCDF x n p = binomialCDFsum x n p := by
  induction x with
  | zero => simp [binomCDF, binomialCDFsum, binomPMF]
  | succ y ih =>
    simp [binomCDF, binomialCDFsum, Finset.sum_range_succ, ih, binomPMF]

/-- C1: for every `(field, value, distribution)` triple processed by
`get_annotation_string` on an input with `total_observed = some t > 0`, the
computed p-value is the binomial CDF with `n = distribution.total_samples`
trials and success probability `null_rate = 1 - total_observed/total_samples`
(exact real-valued division), evaluated at
`distribution.total_samples - distribution.observed_samples`. -/
theorem c1_pvalue_is_binomial_cdf (info : SequenceAnnotationInfo) (t : Nat)
    (h : info.total_observed = some t) (ht : 0 < t)
    (cfield cval : String) (m : List (String × Distribution))
    (cdist : Distribution) (hm : (cfield, m) ∈ info.info) (hd : (cval, cdist) ∈ m) :
    (scoreTriple (1 - (t : ℚ) / (info.total_samples : ℚ)) cfield cval cdist).pval =
      binomialCDFsum (cdist.total_samples - cdist.observed_samples)
        cdist.total_samples (1 - (t : ℚ) / (info.total_samples : ℚ)) := by
  simpa [scoreTriple] using
    binomCDF_eq_sum (cdist.total_samples - cdist.observed_samples)
      cdist.total_samples (1 - (t : ℚ) / (info.total_samples : ℚ))

theorem c1_witness :
    ((⟨ 100, some 10, [( "host", [( "human", ⟨ 20, 8 ⟩ )] )] ⟩ :
        SequenceAnnotationInfo).total_observed = some 10) ∧
    0 < 10 ∧
    (scoreTriple (1 - (10 : ℚ) / (100 : ℚ)) ("host") ("human") ⟨ 20, 8 ⟩).pval =
      binomialCDFsum (20 - 8) 20 (1 - (10 : ℚ) / (100 : ℚ)) := by
  refine ⟨ rfl, by decide, ?_ ⟩
  exact c1_pvalue_is_binomial_cdf
    ⟨ 100, some 10, [( "host", [( "human", ⟨ 20, 8 ⟩ )] )] ⟩ 10 rfl (by decide)
    ("host") ("human") ([( "human", ⟨ 20, 8 ⟩ )]) ⟨ 20, 8 ⟩
    (by simp) (by simp)

/-- C3 counterexample: with the `total_observed` key absent from the
payload, the summarization raises `KeyError` at the dict access instead of
returning the empty summary, so the claim's "absent" disjunct fails. -/
theorem c3_counterexample :
    get_annotation_string_checked ⟨ 100, none, [( "host", [( "human", ⟨ 20, 8 ⟩ )] )] ⟩
        default_pval = Except.error keyError_total_observed ∧
    get_annotation_string_checked ⟨ 100, none, [( "host", [( "human", ⟨ 20, 8 ⟩ )] )] ⟩
        default_pval ≠ Except.ok [] := by
  refine ⟨ rfl, ?_ ⟩
  intro h
  exact Except.noConfusion h

/-- C3 (amended): when the `total_observed` key is present and holds `0` or
the null value, `get_annotation_string` returns the empty summary with no
header element; when the key is absent, the dict access raises `KeyError`
instead of returning a summary. -/
theorem c3_zero_or_null_empty_absent_raises
    (payload : SequenceAnnotationPayload) (pv : ℚ) :
    (payload.total_observed = some (some 0) ∨ payload.total_observed = some none →
      get_annotation_string_checked payload pv = Except.ok []) ∧
    (payload.total_observed = none →
      get_annotation_string_checked payload pv =
        Except.error keyError_total_observed) := by
  constructor
  · intro h
    rcases h with h | h <;>
      simp [get_annotation_string_checked, h, get_annotation_string]
  · intro h
    simp [get_annotation_string_checked, h]

theorem c3_witness :
    get_annotation_string_checked
        ⟨ 100, some (some 0), [( "host", [( "human", ⟨ 20, 8 ⟩ )] )] ⟩
        default_pval = Except.ok [] ∧
    get_annotation_string_checked ⟨ 100, some none, [] ⟩ default_pval =
      Except.ok [] ∧
    get_annotation_string_checked ⟨ 100, none, [] ⟩ default_pval =
      Except.error keyError_total_observed :=
  ⟨ (c3_zero_or_null_empty_absent_raises
      ⟨ 100, some (some 0), [( "host", [( "human", ⟨ 20, 8 ⟩ )] )] ⟩
      default_pval).1 (Or.inl rfl),
    (c3_zero_or_null_empty_absent_raises ⟨ 100, some none, [] ⟩
      default_pval).1 (Or.inr rfl),
    (c3_zero_or_null_empty_absent_raises ⟨ 100, none, [] ⟩
      default_pval).2 rfl ⟩

/-- C4: a `(field, value)` descriptor is kept exactly when its computed
p-value is `≤ pv` (a p-value equal to the threshold is kept, a strictly
greater one is dropped), and the kept descriptor's display text is
`"<field>:<value> (<observed_samples>/<total_samples>)"`. -/
theorem c4_keep_iff_pval_le (null_pv pv : ℚ)
    (inf : List (String × List (String × Distribution)))
    (cfield cval : String) (m : List (String × Distribution))
    (cdist : Distribution) (hm : (cfield, m) ∈ inf) (hd : (cval, cdist) ∈ m) :
    (scoreTriple null_pv cfield cval cdist ∈ keepList null_pv pv inf ↔
      (scoreTriple null_pv cfield cval cdist).pval ≤ pv) ∧
    (scoreTriple null_pv cfield cval cdist).text =
      cfield ++ ":" ++ cval ++ " (" ++ toString cdist.observed_samples ++ "/" ++
        toString cdist.total_samples ++ ")" := by
  constructor
  · constructor
    · intro hmem
      unfold keepList at hmem
      rw [List.mem_flatMap] at hmem
      obtain ⟨cf, _, hmem2⟩ := hmem
      rw [List.mem_filter] at hmem2
      exact of_decide_eq_true hmem2.2
    · intro hle
      unfold keepList
      rw [List.mem_flatMap]
      refine ⟨(cfield, m), hm, ?_⟩
      rw [List.mem_filter]
      exact ⟨List.mem_map.mpr ⟨(cval, cdist), hd, rfl⟩, decide_eq_true hle⟩
  · rfl

theorem c4_witness :
    ((scoreTriple (9 / 10) ("host") ("human") ⟨ 20, 8 ⟩ ∈
        keepList (9 / 10) (1 / 10) [( "host", [( "human", ⟨ 20, 8 ⟩ )] )]) ↔
      (scoreTriple (9 / 10) ("host") ("human") ⟨ 20, 8 ⟩).pval ≤ 1 / 10) ∧
    (scoreTriple (9 / 10) ("host") ("human") ⟨ 20, 8 ⟩).text =
      "host" ++ ":" ++ "human" ++ " (" ++ toString (8 : Nat) ++ "/" ++
        toString (20 : Nat) ++ ")" :=
  c4_keep_iff_pval_le (9 / 10) (1 / 10) [( "host", [( "human", ⟨ 20, 8 ⟩ )] )]
    ("host") ("human") ([( "human", ⟨ 20, 8 ⟩ )]) ⟨ 20, 8 ⟩ (by simp) (by simp)

/-- C5: on an input with `total_observed = some t > 0` the summary is
non-empty and its first element is the header
`"Found in <t/total_samples as fixed-point float> samples (<t> / <total_samples>)"`,
embedding exactly the input's `total_observed` and `total_samples`. -/
theorem c5_header_first (info : SequenceAnnotationInfo) (t : Nat) (pv : ℚ)
    (h : info.total_observed = some t) (ht : 0 < t) :
    get_annotation_string info pv ≠ [] ∧
    (get_annotation_string info pv).head? =
      some ( "Found in " ++ formatFixed6 ((t : ℚ) / (info.total_samples : ℚ)) ++
        " samples (" ++ toString t ++ " / " ++ toString info.total_samples ++ ")" ) := by
  have ht' : t ≠ 0 := Nat.pos_iff_ne_zero.mp ht
  constructor
  · simp [get_annotation_string, h, ht']
  · simp [get_annotation_string, h, ht', headerString]

theorem c5_witness :
    get_annotation_string ⟨ 100, some 10, [] ⟩ default_pval ≠ [] ∧
    (get_annotation_string ⟨ 100, some 10, [] ⟩ default_pval).head? =
      some ( "Found in " ++ formatFixed6 ((10 : ℚ) / (100 : ℚ)) ++
        " samples (" ++ toString (10 : Nat) ++ " / " ++ toString (100 : Nat) ++ ")" ) :=
  c5_header_first ⟨ 100, some 10, [] ⟩ 10 default_pval rfl (by decide)

theorem binomPMF_nonneg {p : ℚ} (hp0 : 0 ≤ p) (hp1 : p ≤ 1) (n k : Nat) :
    0 ≤ binomPMF n k p := by
  have h1 : (0 : ℚ) ≤ (n.choose k : ℚ) := by positivity
  have h2 : (0 : ℚ) ≤ p ^ k := pow_nonneg hp0 k
  have h3 : (0 : ℚ) ≤ (1 - p) ^ (n - k) := pow_nonneg (by linarith) (n - k)
  exact mul_nonneg (mul_nonneg h1 h2) h3

theorem binomCDF_mono {p : ℚ} (hp0 : 0 ≤ p) (hp1 : p ≤ 1) (n : Nat) :
    Monotone (fun x => binomCDF x n p) := by
  apply monotone_nat_of_le_succ
  intro x
  have := binomPMF_nonneg hp0 hp1 n (x + 1)
  simp only [binomCDF]
  linarith

/-- C6: for a fixed null rate in `[0, 1]` and a fixed per-value
`total_samples = n`, the p-value computed for a `(field, value)` pair is
monotonically non-increasing in `observed_samples`. -/
theorem c6_pval_antitone_in_observed (p : ℚ) (hp0 : 0 ≤ p) (hp1 : p ≤ 1)
    (cfield cval : String) (n o1 o2 : Nat) (h : o1 ≤ o2) :
    (scoreTriple p cfield cval ⟨ n, o2 ⟩).pval ≤
      (scoreTriple p cfield cval ⟨ n, o1 ⟩).pval := by
  simp only [scoreTriple]
  exact binomCDF_mono hp0 hp1 n (Nat.sub_le_sub_left h n)

theorem c6_witness :
    (0 : ℚ) ≤ 9 / 10 ∧ (9 / 10 : ℚ) ≤ 1 ∧ (3 : Nat) ≤ 8 ∧
    (scoreTriple (9 / 10) ("host") ("human") ⟨ 20, 8 ⟩).pval ≤
      (scoreTriple (9 / 10) ("host") ("human") ⟨ 20, 3 ⟩).pval :=
  ⟨ by norm_num, by norm_num, by norm_num,
    c6_pval_antitone_in_observed (9 / 10) (by norm_num) (by norm_num)
      ("host") ("human") 20 3 8 (by norm_num) ⟩

/-- C8: at construction, an unrecognized (lower-cased) server-tier value makes
`SpongeWorld.init` fail immediately with the `ValueError` message, while each
recognized value resolves its base URL and stores it in `dburl`. -/
theorem c8_construction (env : String) (u p : Option String) :
    (pyLower env = "local" →
      SpongeWorld.init (some env) u p = Except.ok ⟨ local_url, u, p, local_url ⟩) ∧
    (pyLower env = "main" →
      SpongeWorld.init (some env) u p = Except.ok ⟨ main_url, u, p, main_url ⟩) ∧
    (pyLower env = "develop" →
      SpongeWorld.init (some env) u p = Except.ok ⟨ develop_url, u, p, develop_url ⟩) ∧
    (pyLower env ≠ "local" → pyLower env ≠ "main" → pyLower env ≠ "develop" →
      SpongeWorld.init (some env) u p =
        Except.error (unknown_server_msg (pyLower env))) := by
  have h1 : ("main" : String) ≠ "local" := by decide
  have h2 : ("develop" : String) ≠ "local" := by decide
  have h3 : ("develop" : String) ≠ "main" := by decide
  refine ⟨ fun h => ?_, fun h => ?_, fun h => ?_, fun ha hb hc => ?_ ⟩
  · simp [SpongeWorld.init, _get_db_address, h]
  · simp [SpongeWorld.init, _get_db_address, h, h1]
  · simp [SpongeWorld.init, _get_db_address, h, h2, h3]
  · simp [SpongeWorld.init, _get_db_address, ha, hb, hc]

theorem c8_witness :
    SpongeWorld.init (some ("LOCAL")) none none =
      Except.ok ⟨ local_url, none, none, local_url ⟩ ∧
    SpongeWorld.init (some ("badtier")) none none =
      Except.error (unknown_server_msg (pyLower ("badtier"))) :=
  ⟨ (c8_construction ("LOCAL") none none).1 (by decide),
    (c8_construction ("badtier") none none).2.2.2 (by decide) (by decide) (by decide) ⟩

/-- C9 counterexample: the URL resolved when the environment variable is
absent is not the same string as the one resolved for the value `main` (the
latter carries a trailing slash). -/
theorem c9_counterexample :
    _get_db_address none ≠ _get_db_address (some ("main")) := by
  have h1 : _get_db_address none = Except.ok default_url := rfl
  have h2 : _get_db_address (some ("main")) = Except.ok main_url := rfl
  rw [h1, h2]
  intro h
  exact absurd (Except.ok.inj h) (by decide)

/-- C9 (amended): when the environment variable is absent the resolved URL is
the production server URL without a trailing slash, and the URL resolved for
`main` is exactly that URL with a trailing slash appended. -/
theorem c9_default_is_main_up_to_slash :
    _get_db_address none = Except.ok default_url ∧
    _get_db_address (some ("main")) = Except.ok (default_url ++ "/") := by
  constructor
  · rfl
  · rfl

/-- C7: `get_seq_annotations` issues its request with the sequence
normalized to uppercase, and whenever the response status is not `200` it
returns the empty summary (totally, i.e. without raising to the caller). -/
theorem c7_uppercase_and_non_success (server : String → String → Response)
    (sequence : String) :
    get_seq_annotations server sequence =
      handleSeqInfo (server seq_info_api (pyUpper sequence)) ∧
    (∀ res : Response, res.status_code ≠ 200 → handleSeqInfo res = []) := by
  constructor
  · rfl
  · intro res hres
    simp [handleSeqInfo, hres]

theorem c7_witness :
    get_seq_annotations (fun _ _ => Response.mk 404 ⟨ 0, none, [] ⟩) ("acgt") = [] := by
  have h := c7_uppercase_and_non_success
    (fun _ _ => Response.mk 404 ⟨ 0, none, [] ⟩) ("acgt")
  exact h.1.trans (h.2 (Response.mk 404 ⟨ 0, none, [] ⟩) (by decide))

/-- C10: every pair returned by `get_seq_annotation_strings` carries the
caller's original sequence string (original casing) in its metadata dict
`{annotationtype: other, sequence: sequence}`, although the underlying
query of `get_seq_annotations` is issued with the uppercased sequence. -/
theorem c10_metadata_keeps_original_sequence
    (server : String → String → Response) (sequence : String)
    (pr : List (String × String) × String)
    (hp : pr ∈ get_seq_annotation_strings server sequence) :
    pr.1 = [( "annotationtype", "other" ), ( "sequence", sequence )] ∧
    get_seq_annotations server sequence =
      handleSeqInfo (server seq_info_api (pyUpper sequence)) := by
  constructor
  · unfold get_seq_annotation_strings at hp
    rw [List.mem_map] at hp
    obtain ⟨a, -, hpr⟩ := hp
    rw [← hpr]
    rfl
  · rfl

theorem c10_witness :
    (annDetails ("acgt"), headerString 1 1).1 =
      [( "annotationtype", "other" ), ( "sequence", "acgt" )] ∧
    get_seq_annotations (fun _ _ => Response.mk 200 ⟨ 1, some 1, [] ⟩) ("acgt") =
      handleSeqInfo ((fun _ _ => Response.mk 200 ⟨ 1, some 1, [] ⟩)
        seq_info_api (pyUpper ("acgt"))) :=
  c10_metadata_keeps_original_sequence
    (fun _ _ => Response.mk 200 ⟨ 1, some 1, [] ⟩) ("acgt")
    (annDetails ("acgt"), headerString 1 1) (by
      unfold get_seq_annotation_strings get_seq_annotations handleSeqInfo
      simp [get_annotation_string, sortedKeep, keepList, default_pval])

theorem le_pval_trans : ∀ a b c : ScoredDescriptor,
    le_pval a b → le_pval b c → le_pval a c := by
  intro a b c hab hbc
  simp only [le_pval, decide_eq_true_eq] at *
  exact le_trans hab hbc

theorem le_pval_total : ∀ a b : ScoredDescriptor, le_pval a b || le_pval b a := by
  intro a b
  simp only [le_pval, Bool.or_eq_true, decide_eq_true_eq]
  exact le_total a.pval b.pval

theorem ge_frac_trans : ∀ a b c : ScoredDescriptor,
    ge_frac a b → ge_frac b c → ge_frac a c := by
  intro a b c hab hbc
  simp only [ge_frac, decide_eq_true_eq] at *
  exact le_trans hbc hab

theorem ge_frac_total : ∀ a b : ScoredDescriptor, ge_frac a b || ge_frac b a := by
  intro a b
  simp only [ge_frac, Bool.or_eq_true, decide_eq_true_eq]
  exact le_total b.frac a.frac

theorem mem_enum_getElem {α : Type} {l : List α} {x : Nat × α}
    (h : x ∈ l.enum) : ∃ hi : x.1 < l.length, l.get ⟨x.1, hi⟩ = x.2 := by
  rw [List.mem_iff_getElem] at h
  obtain ⟨n, hn, hna⟩ := h
  have hn' : n < l.length := by simpa [List.enum_length] using hn
  simp only [List.getElem_enum] at hna
  subst hna
  exact ⟨hn', rfl⟩

/-- Key stability fact: if `l1` is sorted ascending by p-value, then any two
decorated elements of `l1.enum` related by the index-refined descending
fraction order `enumLE ge_frac` are either strictly fraction-ordered, or
fraction-tied with their p-values in ascending order. -/
theorem enumLE_ge_frac_key {l1 : List ScoredDescriptor}
    (h1 : l1.Pairwise (fun a b => a.pval ≤ b.pval))
    {x y : Nat × ScoredDescriptor} (hx : x ∈ l1.enum) (hy : y ∈ l1.enum)
    (hxy : List.enumLE ge_frac x y) :
    y.2.frac < x.2.frac ∨ (x.2.frac = y.2.frac ∧ x.2.pval ≤ y.2.pval) := by
  obtain ⟨hi, hgi⟩ := mem_enum_getElem hx
  obtain ⟨hj, hgj⟩ := mem_enum_getElem hy
  rw [List.get_eq_getElem] at hgi hgj
  simp only [List.enumLE, ge_frac] at hxy
  by_cases hab : y.2.frac ≤ x.2.frac
  · by_cases hba : x.2.frac ≤ y.2.frac
    · have hfrac : x.2.frac = y.2.frac := le_antisymm hba hab
      rw [if_pos (decide_eq_true hab), if_pos (decide_eq_true hba)] at hxy
      have hij : x.1 ≤ y.1 := of_decide_eq_true hxy
      rcases lt_or_eq_of_le hij with hlt | heq
      · have hp := List.pairwise_iff_getElem.mp h1 x.1 y.1 hi hj hlt
        rw [hgi, hgj] at hp
        exact Or.inr ⟨hfrac, hp⟩
      · have hxy2 : x.2 = y.2 := by
          rw [← hgi, ← hgj]
          congr 1
        exact Or.inr ⟨hfrac, le_of_eq (by rw [hxy2])⟩
    · exact Or.inl (not_le.mp hba)
  · rw [if_neg (by simpa using hab)] at hxy
    exact Bool.noConfusion hxy

/-- The two-pass stable sort of the keep list (first ascending by p-value,
then descending by fraction) yields a list in which fraction strictly
dominates and p-value ascends within fraction ties. -/
theorem two_pass_pairwise (l : List ScoredDescriptor) :
    ((l.mergeSort le_pval).mergeSort ge_frac).Pairwise
      (fun a b => b.frac < a.frac ∨ (a.frac = b.frac ∧ a.pval ≤ b.pval)) := by
  have h1 : (l.mergeSort le_pval).Pairwise (fun a b => a.pval ≤ b.pval) := by
    have hs := List.sorted_mergeSort le_pval_trans le_pval_total l
    exact hs.imp (fun h => by simpa [le_pval, decide_eq_true_eq] using h)
  have henum := @List.mergeSort_enum ScoredDescriptor ge_frac (l.mergeSort le_pval)
  rw [← henum, List.pairwise_map]
  have hdec := List.sorted_mergeSort (List.enumLE_trans ge_frac_trans)
    (List.enumLE_total ge_frac_total) (l.mergeSort le_pval).enum
  have hdec2 := List.Pairwise.and_mem.mp hdec
  exact hdec2.imp (fun hpq =>
    enumLE_ge_frac_key h1 (List.mem_mergeSort.mp hpq.1)
      (List.mem_mergeSort.mp hpq.2.1) hpq.2.2)

/-- C2: on an input with `total_observed = some t > 0`, the summary is the
header followed by the kept descriptors ordered primarily by fraction
descending, with p-value ascending as the tie-break for equal fractions
(the result of the stable p-value sort followed by the stable fraction
sort); in particular, of two kept descriptors with different fractions the
one with the higher fraction comes first, regardless of p-values. -/
theorem c2_sorted_by_fraction_then_pval (info : SequenceAnnotationInfo)
    (t : Nat) (pv : ℚ) (h : info.total_observed = some t) (ht : 0 < t) :
    get_annotation_string info pv =
      headerString t info.total_samples ::
        (sortedKeep (1 - (t : ℚ) / (info.total_samples : ℚ)) pv info.info).map
          (fun k => k.text) ∧
    (sortedKeep (1 - (t : ℚ) / (info.total_samples : ℚ)) pv info.info).Pairwise
      (fun a b => b.frac < a.frac ∨ (a.frac = b.frac ∧ a.pval ≤ b.pval)) := by
  have ht' : t ≠ 0 := Nat.pos_iff_ne_zero.mp ht
  constructor
  · simp [get_annotation_string, h, ht']
  · exact two_pass_pairwise
      (keepList (1 - (t : ℚ) / (info.total_samples : ℚ)) pv info.info)

theorem c2_witness :
    get_annotation_string
        ⟨ 100, some 10, [( "host", [( "human", ⟨ 20, 8 ⟩ )] )] ⟩ (1 / 10) =
      headerString 10 100 ::
        (sortedKeep (1 - (10 : ℚ) / (100 : ℚ)) (1 / 10)
          [( "host", [( "human", ⟨ 20, 8 ⟩ )] )]).map (fun k => k.text) ∧
    (sortedKeep (1 - (10 : ℚ) / (100 : ℚ)) (1 / 10)
      [( "host", [( "human", ⟨ 20, 8 ⟩ )] )]).Pairwise
      (fun a b => b.frac < a.frac ∨ (a.frac = b.frac ∧ a.pval ≤ b.pval)) :=
  c2_sorted_by_fraction_then_pval
    ⟨ 100, some 10, [( "host", [( "human", ⟨ 20, 8 ⟩ )] )] ⟩ 10 (1 / 10)
    rfl (by decide)

end Spongeworld
